import Mathlib

set_option maxRecDepth 4000

/-!
Shallow embedding of the Serverless-RAG core (Giotros/Serverless-Rag) and
verification of the frozen claims about it.

Conventions of the embedding:
* Python strings are `String` or, inside the chunker, `List Char` (Python
  indexes/slices by code point, as `List Char` does).
* Python floats that only ever carry money/latency/score values are modelled
  as `ℚ`; Python `round(x, n)` is modelled as decimal rounding (`pyRound`).
* External services (S3, DynamoDB, OpenAI, the Pinecone / Postgres backends,
  wall-clock time) are oracles supplied through explicit parameters.
* Fallible calls are `Except String _` mirroring Python exceptions.
-/

/-! ## Definitions: the shallow embedding -/

def pyIsSpace (c : Char) : Bool :=
  c = ' ' || c = '\t' || c = '\n' || c = '\r' || c = '\x0b' || c = '\x0c'

def pyPunct (c : Char) : Bool :=
  c = '.' || c = '!' || c = '?' || c = ';'

def pyStripList (cs : List Char) : List Char :=
  ((cs.dropWhile pyIsSpace).reverse.dropWhile pyIsSpace).reverse

def pyStrip (s : String) : String :=
  String.mk (pyStripList s.toList)

def pyLower (s : String) : String :=
  String.mk (s.toList.map Char.toLower)

def splitAux : Bool → Char → List Char → List (List Char) → List Char → List (List Char)
  | _, _, cur, acc, [] => (cur.reverse :: acc).reverse
  | true, _, cur, acc, c :: rest =>
    if pyIsSpace c then splitAux true ' ' cur acc rest
    else splitAux false c (c :: cur) acc rest
  | false, prev, cur, acc, c :: rest =>
    if pyIsSpace c && pyPunct prev then splitAux true ' ' [] (cur.reverse :: acc) rest
    else splitAux false c (c :: cur) acc rest

def splitSentences (text : List Char) : List (List Char) :=
  splitAux false ' ' [] [] text

structure TextChunk where
  text : List Char
  chunk_index : Nat
  start_char : Int
  end_char : Nat
deriving DecidableEq

structure ChunkState where
  chunks : List TextChunk
  current_text : List Char
  current_start : Int
  char_pos : Nat
deriving DecidableEq

def chunkStep (chunk_size overlap : Nat) (st : ChunkState) (sentence : List Char) :
    ChunkState :=
  if chunk_size < st.current_text.length + sentence.length ∧ st.current_text ≠ [] then
    let current' := st.current_text.drop (st.current_text.length - overlap) ++ ' ' :: sentence
    { chunks := st.chunks ++
        [⟨pyStripList st.current_text, st.chunks.length, st.current_start, st.char_pos⟩],
      current_text := current',
      current_start :=
        (st.char_pos : Int) - ((current'.length : Int) - (sentence.length : Int) - 1),
      char_pos := st.char_pos + sentence.length + 1 }
  else
    { st with
      current_text :=
        if st.current_text = [] then sentence else st.current_text ++ ' ' :: sentence,
      char_pos := st.char_pos + sentence.length + 1 }

def finishChunks (st : ChunkState) : List TextChunk :=
  if pyStripList st.current_text = [] then st.chunks
  else
    st.chunks ++ [⟨pyStripList st.current_text, st.chunks.length, st.current_start,
      st.char_pos⟩]

def chunk_text (text : List Char) (chunk_size overlap : Nat) : List TextChunk :=
  finishChunks ((splitSentences text).foldl (chunkStep chunk_size overlap) ⟨[], [], 0, 0⟩)

def chunkIdxInv (st : ChunkState) : Prop :=
  st.chunks.map TextChunk.chunk_index = List.range st.chunks.length

def mask32 : Nat := 4294967295

def add32 (a b : Nat) : Nat := (a + b) % 4294967296

def bitAndAux : Nat → Nat → Nat → Nat
  | 0, _, _ => 0
  | fuel + 1, a, b => a % 2 * (b % 2) + 2 * bitAndAux fuel (a / 2) (b / 2)

def land32 (a b : Nat) : Nat := bitAndAux 32 a b

def bitXorAux : Nat → Nat → Nat → Nat
  | 0, _, _ => 0
  | fuel + 1, a, b => (a + b) % 2 + 2 * bitXorAux fuel (a / 2) (b / 2)

def lxor32 (a b : Nat) : Nat := bitXorAux 32 a b

def not32 (x : Nat) : Nat := mask32 - x

def rotr32 (x n : Nat) : Nat := x / 2 ^ n + x % 2 ^ n * 2 ^ (32 - n)

def shr32 (x n : Nat) : Nat := x / 2 ^ n

def ch32 (x y z : Nat) : Nat := lxor32 (land32 x y) (land32 (not32 x) z)

def maj32 (x y z : Nat) : Nat := lxor32 (lxor32 (land32 x y) (land32 x z)) (land32 y z)

def bigSigma0 (x : Nat) : Nat := lxor32 (lxor32 (rotr32 x 2) (rotr32 x 13)) (rotr32 x 22)

def bigSigma1 (x : Nat) : Nat := lxor32 (lxor32 (rotr32 x 6) (rotr32 x 11)) (rotr32 x 25)

def smallSigma0 (x : Nat) : Nat := lxor32 (lxor32 (rotr32 x 7) (rotr32 x 18)) (shr32 x 3)

def smallSigma1 (x : Nat) : Nat := lxor32 (lxor32 (rotr32 x 17) (rotr32 x 19)) (shr32 x 10)

def sha256K : List Nat :=
  [1116352408, 1899447441, 3049323471, 3921009573, 961987163,
   1508970993, 2453635748, 2870763221, 3624381080, 310598401,
   607225278, 1426881987, 1925078388, 2162078206, 2614888103,
   3248222580, 3835390401, 4022224774, 264347078, 604807628,
   770255983, 1249150122, 1555081692, 1996064986, 2554220882,
   2821834349, 2952996808, 3210313671, 3336571891, 3584528711,
   113926993, 338241895, 666307205, 773529912, 1294757372,
   1396182291, 1695183700, 1986661051, 2177026350, 2456956037,
   2730485921, 2820302411, 3259730800, 3345764771, 3516065817,
   3600352804, 4094571909, 275423344, 430227734, 506948616,
   659060556, 883997877, 958139571, 1322822218, 1537002063,
   1747873779, 1955562222, 2024104815, 2227730452, 2361852424,
   2428436474, 2756734187, 3204031479, 3329325298]

structure Sha256State where
  a : Nat
  b : Nat
  c : Nat
  d : Nat
  e : Nat
  f : Nat
  g : Nat
  h : Nat

def sha256Init : Sha256State :=
  ⟨1779033703, 3144134277, 1013904242, 2773480762,
   1359893119, 2600822924, 528734635, 1541459225⟩

def sha256Round (st : Sha256State) (wk : Nat × Nat) : Sha256State :=
  let t1 := add32 st.h (add32 (bigSigma1 st.e) (add32 (ch32 st.e st.f st.g)
    (add32 wk.2 wk.1)))
  let t2 := add32 (bigSigma0 st.a) (maj32 st.a st.b st.c)
  ⟨add32 t1 t2, st.a, st.b, st.c, add32 st.d t1, st.e, st.f, st.g⟩

def bytesToWords : List Nat → List Nat
  | b0 :: b1 :: b2 :: b3 :: rest =>
    (b0 * 16777216 + b1 * 65536 + b2 * 256 + b3) :: bytesToWords rest
  | _ => []

def sha256Schedule (block : List Nat) : List Nat :=
  (List.range 48).foldl
    (fun w _ =>
      let n := w.length
      w ++ [add32 (add32 (smallSigma1 (w.getD (n - 2) 0)) (w.getD (n - 7) 0))
        (add32 (smallSigma0 (w.getD (n - 15) 0)) (w.getD (n - 16) 0))])
    block

def sha256Block (hs : Sha256State) (block : List Nat) : Sha256State :=
  let w := sha256Schedule (bytesToWords block)
  let s := (w.zip sha256K).foldl sha256Round hs
  ⟨add32 hs.a s.a, add32 hs.b s.b, add32 hs.c s.c, add32 hs.d s.d, add32 hs.e s.e,
   add32 hs.f s.f, add32 hs.g s.g, add32 hs.h s.h⟩

def lenBytes8 (n : Nat) : List Nat :=
  [n / 2 ^ 56 % 256, n / 2 ^ 48 % 256, n / 2 ^ 40 % 256, n / 2 ^ 32 % 256,
   n / 2 ^ 24 % 256, n / 2 ^ 16 % 256, n / 2 ^ 8 % 256, n % 256]

def sha256Pad (msg : List Nat) : List Nat :=
  let l := msg.length
  let zeros := (119 - l % 64) % 64
  msg ++ 128 :: List.replicate zeros 0 ++ lenBytes8 (l * 8)

def toBlocksAux : Nat → List Nat → List (List Nat)
  | 0, _ => []
  | _, [] => []
  | fuel + 1, l => l.take 64 :: toBlocksAux fuel (l.drop 64)

def toBlocks (l : List Nat) : List (List Nat) :=
  toBlocksAux l.length l

def wordBytes (w : Nat) : List Nat :=
  [w / 16777216 % 256, w / 65536 % 256, w / 256 % 256, w % 256]

def sha256 (msg : List Nat) : List Nat :=
  let fin := (toBlocks (sha256Pad msg)).foldl sha256Block sha256Init
  ([fin.a, fin.b, fin.c, fin.d, fin.e, fin.f, fin.g, fin.h].map wordBytes).flatten

def hexDigitChar (n : Nat) : Char :=
  if n < 10 then Char.ofNat (48 + n) else Char.ofNat (87 + n)

def bytesToHex (bs : List Nat) : String :=
  String.mk ((bs.map (fun b => [hexDigitChar (b / 16), hexDigitChar (b % 16)])).flatten)

def utf8Char (c : Char) : List Nat :=
  let n := c.toNat
  if n < 128 then [n]
  else if n < 2048 then [192 + n / 64, 128 + n % 64]
  else if n < 65536 then [224 + n / 4096, 128 + n / 64 % 64, 128 + n % 64]
  else [240 + n / 262144, 128 + n / 4096 % 64, 128 + n / 64 % 64, 128 + n % 64]

def utf8Encode (s : String) : List Nat :=
  (s.toList.map utf8Char).flatten

def pyRound (q : ℚ) (n : Nat) : ℚ :=
  ((round (q * 10 ^ n) : ℤ) : ℚ) / 10 ^ n

def pyInt (q : ℚ) : ℤ :=
  if 0 ≤ q then ⌊q⌋ else ⌈q⌉

def wordCountAux : Bool → List Char → Nat
  | _, [] => 0
  | inWord, c :: rest =>
    if pyIsSpace c then wordCountAux false rest
    else (if inWord then 0 else 1) + wordCountAux true rest

def wordCount (s : String) : Nat := wordCountAux false s.toList

structure Source where
  document_id : String
  filename : String
  score : ℚ
  chunk_id : String
deriving DecidableEq

structure Response where
  answer : String
  sources : List Source
  context_used : Nat
deriving DecidableEq

structure QueryMetrics where
  embedding_ms : ℚ
  search_ms : ℚ
  llm_ms : ℚ
  total_ms : ℚ
  tokens_used : ℤ
  cost_usd : ℚ
  cache_hit : Bool
deriving DecidableEq

structure CacheItem where
  expires_at : Option ℚ
  response : Option Response
deriving DecidableEq

def get_cache_key (query : String) : String :=
  String.mk ((bytesToHex (sha256 (utf8Encode (pyStrip (pyLower query))))).toList.take 32)

def get_cached_response (cacheEnabled : Bool)
    (table : String → Except String (Option CacheItem)) (now : ℚ)
    (cache_key : String) : Option Response :=
  if !cacheEnabled then none
  else
    match table cache_key with
    | .error _ => none
    | .ok none => none
    | .ok (some item) =>
      if now < item.expires_at.getD 0 then item.response else none

structure PMatch where
  id : String
  score : ℚ
  metadata : List (String × String)
deriving DecidableEq

structure SearchResult where
  chunk_id : String
  document_id : String
  text : String
  score : ℚ
  metadata : List (String × String)
deriving DecidableEq

def dictGet (d : List (String × String)) (k dflt : String) : String :=
  ((d.find? (fun kv => kv.1 == k)).map Prod.snd).getD dflt

def mkSearchResult (m : PMatch) : SearchResult :=
  ⟨m.id, dictGet m.metadata "document_id" "", dictGet m.metadata "text" "",
   m.score, m.metadata⟩

def search_pinecone (pmatches : List PMatch) (threshold : ℚ) : List SearchResult :=
  pmatches.foldl
    (fun results m =>
      if threshold ≤ m.score then results ++ [mkSearchResult m] else results) []

def noDocsContext : String := "Δεν βρέθηκαν σχετικά έγγραφα."

def contextParts : Nat → List SearchResult → List String
  | _, [] => []
  | i, r :: rest => ("[" ++ toString i ++ "] " ++ r.text) :: contextParts (i + 1) rest

def sourceOf (r : SearchResult) : Source :=
  ⟨r.document_id, dictGet r.metadata "filename" r.document_id, pyRound r.score 3,
   r.chunk_id⟩

def buildSources (results : List SearchResult) : List Source :=
  results.map sourceOf

def buildContextAndSources (results : List SearchResult) : String × List Source :=
  if results.isEmpty then (noDocsContext, [])
  else (String.intercalate "\n\n" (contextParts 1 results), buildSources results)

def calculate_query_cost (embedding_tokens llm_tokens : ℤ) : ℚ :=
  pyRound ((embedding_tokens : ℚ) / 1000000 * (1 / 50)
    + (llm_tokens : ℚ) / 1000000 * (2 / 5)) 6

structure PipelineEnv where
  cacheEnabled : Bool
  cacheTable : String → Except String (Option CacheItem)
  now : ℚ
  embed : String → Except String (List ℚ)
  backend : List ℚ → Except String (List PMatch)
  generate : String → String → Except String (String × ℤ)
  embedMs : ℚ
  searchMs : ℚ
  llmMs : ℚ
  totalMs : ℚ

def hitMetrics (env : PipelineEnv) : QueryMetrics :=
  ⟨0, 0, 0, env.totalMs, 0, 0, true⟩

def missMetrics (env : PipelineEnv) (query : String) (llm_tokens : ℤ) : QueryMetrics :=
  ⟨pyRound env.embedMs 2, pyRound env.searchMs 2, pyRound env.llmMs 2,
   pyRound env.totalMs 2,
   pyInt ((wordCount query : ℚ) * (13 / 10) + (llm_tokens : ℤ)),
   calculate_query_cost (pyInt ((wordCount query : ℚ) * (13 / 10))) llm_tokens,
   false⟩

def buildPipelineResponse (pmatches : List PMatch) (threshold : ℚ) (answer : String) :
    Response :=
  ⟨answer, (buildContextAndSources (search_pinecone pmatches threshold)).2,
   (search_pinecone pmatches threshold).length⟩

inductive Stage
  | embed
  | search
  | generate
deriving DecidableEq

def process_query (env : PipelineEnv) (query : String) (threshold : ℚ) :
    Except String (Response × QueryMetrics) × List Stage :=
  match get_cached_response env.cacheEnabled env.cacheTable env.now
      (get_cache_key query) with
  | some cached => (.ok (cached, hitMetrics env), [])
  | none =>
    match env.embed query with
    | .error e => (.error e, [.embed])
    | .ok query_embedding =>
      match env.backend query_embedding with
      | .error e => (.error e, [.embed, .search])
      | .ok pmatches =>
        match env.generate query
            (buildContextAndSources (search_pinecone pmatches threshold)).1 with
        | .error e => (.error e, [.embed, .search, .generate])
        | .ok (answer, llm_tokens) =>
          (.ok (buildPipelineResponse pmatches threshold answer,
            missMetrics env query llm_tokens), [.embed, .search, .generate])

inductive HandlerBody
  | success (query : String) (response : Response) (metrics : QueryMetrics)
  | failure (error : String)
deriving DecidableEq

structure LambdaResponse where
  statusCode : Nat
  body : HandlerBody
deriving DecidableEq

def handler (env : PipelineEnv) (rawQuery : String) (threshold : ℚ) : LambdaResponse :=
  if pyStrip rawQuery = "" then ⟨400, .failure "Missing query parameter"⟩
  else if 1000 < (pyStrip rawQuery).length then
    ⟨400, .failure "Query too long (max 1000 chars)"⟩
  else
    match (process_query env (pyStrip rawQuery) threshold).1 with
    | .ok (response, metrics) => ⟨200, .success (pyStrip rawQuery) response metrics⟩
    | .error e => ⟨500, .failure e⟩

structure VectorRecord where
  id : String
  vector : List ℚ
  text : String
  metadata : List (String × String)
  score : Option ℚ
deriving DecidableEq

def dictSet (d : List (String × String)) (k v : String) : List (String × String) :=
  if d.any (fun kv => kv.1 == k) then
    d.map (fun kv => if kv.1 == k then (k, v) else kv)
  else d ++ [(k, v)]

def dictMerge (base other : List (String × String)) : List (String × String) :=
  other.foldl (fun d kv => dictSet d kv.1 kv.2) base

def pineconeUpsertMetadata (r : VectorRecord) : List (String × String) :=
  dictMerge [("text", String.mk (r.text.toList.take 1000))] r.metadata

structure PineconeEntry where
  values : List ℚ
  metadata : List (String × String)
deriving DecidableEq

def pineconeUpsertStore (store : String → Option PineconeEntry)
    (records : List VectorRecord) : (String → Option PineconeEntry) × Nat :=
  (records.foldl
    (fun st r => fun i =>
      if i = r.id then some ⟨r.vector, pineconeUpsertMetadata r⟩ else st i) store,
   records.length)

def pineconeSearchTextOf (store : String → Option PineconeEntry) (id : String) :
    Option String :=
  (store id).map (fun e => dictGet e.metadata "text" "")

structure PgRow where
  id : String
  embedding : List ℚ
  text : String
  metadata : List (String × String)
deriving DecidableEq

def pgUpsertStore (store : String → Option PgRow) (records : List VectorRecord) :
    (String → Option PgRow) × Nat :=
  (records.foldl
    (fun st r => fun i =>
      if i = r.id then some ⟨r.id, r.vector, r.text, r.metadata⟩ else st i) store,
   records.length)

def pgSearchTextOf (store : String → Option PgRow) (id : String) : Option String :=
  (store id).map PgRow.text

def pineconeDelete (store : List (String × PineconeEntry)) (ids : List String) :
    List (String × PineconeEntry) × Nat :=
  if ids.isEmpty then (store, 0)
  else (store.filter (fun p => !(ids.contains p.1)), ids.length)

def pgDelete (store : List PgRow) (ids : List String) : List PgRow × Nat :=
  if ids.isEmpty then (store, 0)
  else (store.filter (fun row => !(ids.contains row.id)),
        (store.filter (fun row => ids.contains row.id)).length)

def envBackendDown : PipelineEnv :=
  ⟨true, fun _ => .ok none, 0, fun _ => .ok [], fun _ => .error "connection refused",
   fun _ _ => .ok ("ok", 0), 0, 0, 0, 0⟩

def envNoMatches : PipelineEnv :=
  ⟨true, fun _ => .ok none, 0, fun _ => .ok [], fun _ => .ok [],
   fun _ _ => .ok ("no info", 7), 0, 0, 0, 0⟩

/-! ## Theorems -/

theorem pyIsSpace_not_punct {c : Char} (h : pyIsSpace c = true) : pyPunct c = false := by
  simp only [pyIsSpace, Bool.or_eq_true, decide_eq_true_eq] at h
  rcases h with ((((h | h) | h) | h) | h) | h <;> subst h <;> rfl

theorem splitSentences_demo  : splitSentences "abcd. x.".toList = ["abcd.".toList, "x.".toList] := by decide

theorem chunk_text_demo_overlap5  :
    chunk_text "abcd. x.".toList 5 5 =
      [⟨"abcd.".toList, 0, 0, 6⟩, ⟨"abcd. x.".toList, 1, 1, 9⟩] := by decide

theorem chunk_text_demo_overlap4  :
    chunk_text "abcd. x.".toList 5 4 =
      [⟨"abcd.".toList, 0, 0, 6⟩, ⟨"bcd. x.".toList, 1, 2, 9⟩] := by decide

theorem chunk_text_demo_empty  : chunk_text "".toList 1000 200 = [] := by decide

theorem chunkStep_idx (cs ov : Nat) (st : ChunkState) (s : List Char)
    (h : chunkIdxInv st) : chunkIdxInv (chunkStep cs ov st s) := by
  unfold chunkIdxInv at h ⊢
  unfold chunkStep
  split
  · simp [List.range_succ, h]
  · simpa using h

theorem foldl_chunkStep_idx (cs ov : Nat) (l : List (List Char)) (st : ChunkState)
    (h : chunkIdxInv st) : chunkIdxInv (l.foldl (chunkStep cs ov) st) := by
  induction l generalizing st with
  | nil => exact h
  | cons s rest ih => exact ih _ (chunkStep_idx cs ov st s h)

theorem finishChunks_idx (st : ChunkState) (h : chunkIdxInv st) :
    (finishChunks st).map TextChunk.chunk_index = List.range (finishChunks st).length := by
  unfold chunkIdxInv at h
  unfold finishChunks
  split
  · exact h
  · simp [List.range_succ, h]

theorem splitAux_all_ws (cs : List Char) : ∀ (prev : Char) (cur : List Char)
    (acc : List (List Char)), (∀ c ∈ cs, pyIsSpace c = true) → pyPunct prev = false →
    splitAux false prev cur acc cs = acc.reverse ++ [cur.reverse ++ cs] := by
  induction cs with
  | nil => intro prev cur acc _ _; simp [splitAux]
  | cons c rest ih =>
    intro prev cur acc hall hprev
    have hc : pyIsSpace c = true := hall c (by simp)
    have hcond : (pyIsSpace c && pyPunct prev) = false := by simp [hprev]
    rw [show splitAux false prev cur acc (c :: rest) =
        (if pyIsSpace c && pyPunct prev then splitAux true ' ' [] (cur.reverse :: acc) rest
         else splitAux false c (c :: cur) acc rest) from rfl]
    rw [hcond]
    simp only [Bool.false_eq_true, if_false]
    rw [ih c (c :: cur) acc (fun x hx => hall x (List.mem_cons_of_mem c hx))
      (pyIsSpace_not_punct hc)]
    simp

theorem splitSentences_all_ws (text : List Char)
    (h : ∀ c ∈ text, pyIsSpace c = true) : splitSentences text = [text] := by
  unfold splitSentences
  rw [splitAux_all_ws text ' ' [] [] h rfl]
  simp

theorem pyStripList_all_ws (l : List Char) (h : ∀ c ∈ l, pyIsSpace c = true) :
    pyStripList l = [] := by
  unfold pyStripList
  rw [List.dropWhile_eq_nil_iff.mpr h]
  rfl

theorem chunkStep_chunks_le (cs ov : Nat) (st : ChunkState) (s : List Char) :
    (chunkStep cs ov st s).chunks.length ≤ st.chunks.length + 1 := by
  unfold chunkStep
  split <;> simp

theorem foldl_chunkStep_chunks_le (cs ov : Nat) (l : List (List Char)) (st : ChunkState) :
    (l.foldl (chunkStep cs ov) st).chunks.length ≤ st.chunks.length + l.length := by
  induction l generalizing st with
  | nil => simp
  | cons s rest ih =>
    calc ((s :: rest).foldl (chunkStep cs ov) st).chunks.length
        ≤ (chunkStep cs ov st s).chunks.length + rest.length := ih _
      _ ≤ st.chunks.length + 1 + rest.length :=
          Nat.add_le_add_right (chunkStep_chunks_le cs ov st s) _
      _ = st.chunks.length + (s :: rest).length := by simp; omega

theorem chunk_text_indices_dense (text : List Char) (cs ov : Nat) :
    (chunk_text text cs ov).map TextChunk.chunk_index =
      List.range (chunk_text text cs ov).length := by
  unfold chunk_text
  exact finishChunks_idx _
    (foldl_chunkStep_idx cs ov (splitSentences text) ⟨[], [], 0, 0⟩ (by simp [chunkIdxInv]))

theorem chunk_text_ws_empty (text : List Char) (cs ov : Nat)
    (h : ∀ c ∈ text, pyIsSpace c = true) : chunk_text text cs ov = [] := by
  unfold chunk_text
  rw [splitSentences_all_ws text h]
  have hstep : chunkStep cs ov ⟨[], [], 0, 0⟩ text =
      ⟨[], text, 0, 0 + text.length + 1⟩ := by
    unfold chunkStep
    simp
  rw [List.foldl_cons, List.foldl_nil, hstep]
  unfold finishChunks
  rw [pyStripList_all_ws text h]
  simp

theorem chunk_text_ws_empty_witness : chunk_text [' ', '\t'] 1000 200 = [] :=
  chunk_text_ws_empty [' ', '\t'] 1000 200 (by decide)

theorem chunk_text_no_overlap_cap :
    chunk_text "abcd. x.".toList 5 5 ≠ chunk_text "abcd. x.".toList 5 4 := by decide

theorem chunk_text_terminates (text : List Char) (cs ov : Nat) (h : cs ≤ ov) :
    (chunk_text text cs ov).length ≤ (splitSentences text).length + 1 := by
  have hfold : ((splitSentences text).foldl (chunkStep cs ov) ⟨[], [], 0, 0⟩).chunks.length
      ≤ (splitSentences text).length := by
    simpa using foldl_chunkStep_chunks_le cs ov (splitSentences text) ⟨[], [], 0, 0⟩
  unfold chunk_text finishChunks
  split
  · omega
  · rw [List.length_append]
    simp only [List.length_cons, List.length_nil]
    omega

theorem chunk_text_terminates_witness :
    (chunk_text "abcd. x.".toList 5 7).length ≤ (splitSentences "abcd. x.".toList).length + 1 :=
  chunk_text_terminates "abcd. x.".toList 5 7 (by decide)

theorem sha256_empty_vector :
    bytesToHex (sha256 []) =
      "e3b0c44298fc1c149afbf4c8996fb92427ae41e4649b934ca495991b7852b855" := by decide

theorem sha256_hello_vector :
    bytesToHex (sha256 (utf8Encode "hello")) =
      "2cf24dba5fb0a30e26e83b2ac5b9e29e1b161e5c1fa7425e73043362938b9824" := by decide

theorem expired_cache_entry_is_miss (enabled : Bool)
    (table : String → Except String (Option CacheItem)) (now : ℚ) (key : String)
    (item : CacheItem) (hread : table key = .ok (some item))
    (hexp : item.expires_at.getD 0 ≤ now) :
    get_cached_response enabled table now key = none := by
  cases enabled <;> simp [get_cached_response, hread, not_lt.mpr hexp]

theorem expired_cache_entry_is_miss_witness :
    get_cached_response true
      (fun _ => .ok (some ⟨some 5, some ⟨"stale", [], 0⟩⟩)) 7 "k" = none :=
  expired_cache_entry_is_miss true
    (fun _ => .ok (some ⟨some 5, some ⟨"stale", [], 0⟩⟩)) 7 "k"
    ⟨some 5, some ⟨"stale", [], 0⟩⟩ rfl (by decide)

theorem cache_key_normalized :
    (∀ q1 q2 : String, pyStrip (pyLower q1) = pyStrip (pyLower q2) →
      get_cache_key q1 = get_cache_key q2)
    ∧ get_cache_key " Hello " = get_cache_key "hello"
    ∧ get_cache_key "hello" ≠ get_cache_key "Goodbye" := by
  refine ⟨fun q1 q2 h => ?_, by decide, by decide⟩
  unfold get_cache_key
  rw [h]

theorem cache_key_normalized_witness : get_cache_key " AbC " = get_cache_key "abc" :=
  cache_key_normalized.1 " AbC " "abc" (by decide)

theorem length_filter_add_length_filter_not {α : Type} (l : List α) (p : α → Bool) :
    (l.filter p).length + (l.filter (fun a => !(p a))).length = l.length := by
  induction l with
  | nil => rfl
  | cons a t ih =>
    by_cases h : p a = true <;>
      simp [List.filter_cons, h, Nat.add_assoc, Nat.add_comm, Nat.add_left_comm, ← ih]

theorem pinecone_delete_count_counterexample :
    (pineconeDelete [("a", ⟨[], []⟩)] ["a", "b"]).2 ≠
      [("a", (⟨[], []⟩ : PineconeEntry))].length -
        ((pineconeDelete [("a", ⟨[], []⟩)] ["a", "b"]).1).length := by decide

theorem delete_count_semantics (gstore : List PgRow)
    (pstore : List (String × PineconeEntry)) (ids : List String) :
    (pgDelete gstore ids).2 = gstore.length - ((pgDelete gstore ids).1).length
    ∧ (pineconeDelete pstore ids).2 = (if ids.isEmpty then 0 else ids.length) := by
  constructor
  · unfold pgDelete
    split
    · simp
    · have h := length_filter_add_length_filter_not gstore
        (fun row => ids.contains row.id)
      simp only []
      omega
  · unfold pineconeDelete
    split <;> simp_all

theorem search_pinecone_eq_filter (pmatches : List PMatch) (threshold : ℚ) :
    search_pinecone pmatches threshold =
      (pmatches.filter (fun m => decide (threshold ≤ m.score))).map mkSearchResult := by
  have aux : ∀ (l : List PMatch) (acc : List SearchResult),
      l.foldl (fun results m =>
        if threshold ≤ m.score then results ++ [mkSearchResult m] else results) acc =
      acc ++ (l.filter (fun m => decide (threshold ≤ m.score))).map mkSearchResult := by
    intro l
    induction l with
    | nil => intro acc; simp
    | cons m rest ih =>
      intro acc
      by_cases h : threshold ≤ m.score <;>
        simp [List.foldl_cons, List.filter_cons, h, ih]
  simpa [search_pinecone] using aux pmatches []

theorem buildContextAndSources_snd (results : List SearchResult) :
    (buildContextAndSources results).2 = buildSources results := by
  cases results <;> rfl

theorem pyRound_mono {a b : ℚ} (n : Nat) (h : a ≤ b) : pyRound a n ≤ pyRound b n := by
  unfold pyRound
  have h1 : a * 10 ^ n ≤ b * 10 ^ n := by
    apply mul_le_mul_of_nonneg_right h
    positivity
  have h2 : (round (a * 10 ^ n) : ℤ) ≤ round (b * 10 ^ n) := by
    rw [round_eq, round_eq]
    exact Int.floor_mono (by linarith)
  have h3 : ((round (a * 10 ^ n) : ℤ) : ℚ) ≤ ((round (b * 10 ^ n) : ℤ) : ℚ) := by
    exact_mod_cast h2
  have hpow : (0 : ℚ) < 10 ^ n := by positivity
  exact div_le_div_of_nonneg_right h3 hpow.le

theorem pipeline_sources_thresholded (pmatches : List PMatch) (threshold : ℚ)
    (answer : String) :
    (buildPipelineResponse pmatches threshold answer).sources =
      (pmatches.filter (fun m => decide (threshold ≤ m.score))).map
        (fun m => sourceOf (mkSearchResult m))
    ∧ (pmatches.Pairwise (fun a b => b.score ≤ a.score) →
       (buildPipelineResponse pmatches threshold answer).sources.Pairwise
         (fun a b => b.score ≤ a.score)) := by
  have hsrc : (buildPipelineResponse pmatches threshold answer).sources =
      (pmatches.filter (fun m => decide (threshold ≤ m.score))).map
        (fun m => sourceOf (mkSearchResult m)) := by
    show (buildContextAndSources (search_pinecone pmatches threshold)).2 = _
    rw [buildContextAndSources_snd, search_pinecone_eq_filter]
    simp [buildSources, List.map_map]
  refine ⟨hsrc, fun hp => ?_⟩
  rw [hsrc]
  refine List.Pairwise.map _ (fun a b hab => ?_) (hp.filter _)
  exact pyRound_mono 3 hab

theorem pipeline_sources_thresholded_witness :
    (buildPipelineResponse
      [⟨"a", 3, []⟩, ⟨"b", 2, [("filename", "f")]⟩, ⟨"c", 0, []⟩] 1 "ans").sources.Pairwise
      (fun a b => b.score ≤ a.score) :=
  (pipeline_sources_thresholded
    [⟨"a", 3, []⟩, ⟨"b", 2, [("filename", "f")]⟩, ⟨"c", 0, []⟩] 1 "ans").2 (by decide)

theorem cache_hit_short_circuits (env : PipelineEnv) (query : String)
    (threshold : ℚ) (resp : Response)
    (h : get_cached_response env.cacheEnabled env.cacheTable env.now
      (get_cache_key query) = some resp) :
    process_query env query threshold =
      (.ok (resp, ⟨0, 0, 0, env.totalMs, 0, 0, true⟩), []) := by
  unfold process_query
  rw [h]
  rfl

theorem cache_hit_short_circuits_witness :
    process_query
      ⟨true, fun _ => .ok (some ⟨some 10, some ⟨"cached answer", [], 0⟩⟩), 0,
        fun _ => .error "unused", fun _ => .error "unused",
        fun _ _ => .error "unused", 0, 0, 0, 0⟩ "hi" 1 =
      (.ok (⟨"cached answer", [], 0⟩, ⟨0, 0, 0, 0, 0, 0, true⟩), []) :=
  cache_hit_short_circuits
    ⟨true, fun _ => .ok (some ⟨some 10, some ⟨"cached answer", [], 0⟩⟩), 0,
      fun _ => .error "unused", fun _ => .error "unused",
      fun _ _ => .error "unused", 0, 0, 0, 0⟩ "hi" 1 ⟨"cached answer", [], 0⟩
    (by decide)

theorem vector_store_error_counterexample :
    handler envBackendDown "what is the policy" 1 =
      ⟨500, .failure "connection refused"⟩ := by decide

theorem vector_store_error_propagates (env : PipelineEnv) (raw : String)
    (threshold : ℚ) (v : List ℚ) (e : String) (ans : String) (tok : ℤ)
    (hne : ¬ pyStrip raw = "")
    (hlen : ¬ 1000 < (pyStrip raw).length)
    (hmiss : get_cached_response env.cacheEnabled env.cacheTable env.now
      (get_cache_key (pyStrip raw)) = none)
    (hembed : env.embed (pyStrip raw) = .ok v) :
    (env.backend v = .error e → handler env raw threshold = ⟨500, .failure e⟩)
    ∧ (env.backend v = .ok [] →
        env.generate (pyStrip raw) noDocsContext = .ok (ans, tok) →
        handler env raw threshold =
          ⟨200, .success (pyStrip raw) ⟨ans, [], 0⟩
            (missMetrics env (pyStrip raw) tok)⟩) := by
  constructor
  · intro hb
    have hp : (process_query env (pyStrip raw) threshold).1 = .error e := by
      unfold process_query
      simp only [hmiss, hembed, hb]
    unfold handler
    rw [if_neg hne, if_neg hlen, hp]
  · intro hb hgen
    have hp : (process_query env (pyStrip raw) threshold).1 =
        .ok (⟨ans, [], 0⟩, missMetrics env (pyStrip raw) tok) := by
      unfold process_query
      simp only [hmiss, hembed, hb]
      have hres : search_pinecone [] threshold = [] := rfl
      simp only [hres]
      have hctx : (buildContextAndSources []).1 = noDocsContext := rfl
      simp only [hctx, hgen]
      rfl
    unfold handler
    rw [if_neg hne, if_neg hlen, hp]

theorem vector_store_error_propagates_witness :
    handler envNoMatches "what is the policy" 1 =
      ⟨200, .success (pyStrip "what is the policy") ⟨"no info", [], 0⟩
        (missMetrics envNoMatches (pyStrip "what is the policy") 7)⟩ :=
  (vector_store_error_propagates envNoMatches "what is the policy" 1 [] "e" "no info" 7
    (by decide) (by decide) rfl rfl).2 rfl rfl

theorem find?_dictSetMap (d : List (String × String)) (k' v k : String)
    (h : (k' == k) = false) :
    (d.map (fun kv => if kv.1 == k' then (k', v) else kv)).find?
      (fun kv => kv.1 == k) = d.find? (fun kv => kv.1 == k) := by
  induction d with
  | nil => rfl
  | cons kv t ih =>
    simp only [List.map_cons]
    by_cases h1 : (kv.1 == k') = true
    · have hkv : kv.1 = k' := eq_of_beq h1
      have hk : (kv.1 == k) = false := by rw [hkv]; exact h
      rw [if_pos h1, List.find?_cons, List.find?_cons]
      simp only [h, hk]
      exact ih
    · rw [if_neg h1]
      rw [List.find?_cons, List.find?_cons]
      by_cases h2 : (kv.1 == k) = true
      · simp only [h2]
      · simp only [Bool.not_eq_true] at h2
        simp only [h2]
        exact ih

theorem dictGet_dictSet_ne (d : List (String × String)) (k' v k dflt : String)
    (h : (k' == k) = false) :
    dictGet (dictSet d k' v) k dflt = dictGet d k dflt := by
  unfold dictGet dictSet
  split
  · rw [find?_dictSetMap d k' v k h]
  · rw [List.find?_append]
    have : ([(k', v)].find? (fun kv => kv.1 == k)) = none := by
      simp [List.find?_cons, h]
    rw [this, Option.or_none]

theorem dictGet_dictMerge_of_absent (other : List (String × String)) :
    ∀ (base : List (String × String)) (k dflt : String),
    other.find? (fun kv => kv.1 == k) = none →
    dictGet (dictMerge base other) k dflt = dictGet base k dflt := by
  induction other with
  | nil => intro base k dflt _; rfl
  | cons kv t ih =>
    intro base k dflt h
    have h1 : (kv.1 == k) = false := by
      by_cases hb : (kv.1 == k) = true
      · rw [List.find?_cons] at h
        simp [hb] at h
      · simpa using hb
    have ht : t.find? (fun kv => kv.1 == k) = none := by
      rw [List.find?_cons] at h
      simpa only [h1] using h
    show dictGet (dictMerge (dictSet base kv.1 kv.2) t) k dflt = dictGet base k dflt
    rw [ih (dictSet base kv.1 kv.2) k dflt ht, dictGet_dictSet_ne base kv.1 kv.2 k dflt h1]

theorem pinecone_truncates_text_pgvector_does_not (r : VectorRecord)
    (pstore : String → Option PineconeEntry) (gstore : String → Option PgRow)
    (hmeta : r.metadata.find? (fun kv => kv.1 == "text") = none)
    (hlen : 1000 < r.text.toList.length) :
    pineconeSearchTextOf (pineconeUpsertStore pstore [r]).1 r.id =
      some (String.mk (r.text.toList.take 1000))
    ∧ (String.mk (r.text.toList.take 1000)) ≠ r.text
    ∧ (∃ rest, rest ≠ [] ∧ r.text.toList = r.text.toList.take 1000 ++ rest)
    ∧ pgSearchTextOf (pgUpsertStore gstore [r]).1 r.id = some r.text := by
  refine ⟨?_, ?_, ?_, ?_⟩
  · show (if r.id = r.id then some ⟨r.vector, pineconeUpsertMetadata r⟩
      else pstore r.id).map (fun e => dictGet e.metadata "text" "") = _
    rw [if_pos rfl]
    show some (dictGet (pineconeUpsertMetadata r) "text" "") = _
    unfold pineconeUpsertMetadata
    rw [dictGet_dictMerge_of_absent r.metadata [("text",
      String.mk (r.text.toList.take 1000))] "text" "" hmeta]
    rfl
  · intro heq
    have hlist : r.text.toList.take 1000 = r.text.toList := congrArg String.toList heq
    have : (r.text.toList.take 1000).length = r.text.toList.length := by rw [hlist]
    rw [List.length_take] at this
    omega
  · refine ⟨r.text.toList.drop 1000, ?_, (List.take_append_drop 1000 r.text.toList).symm⟩
    have hpos : 0 < (r.text.toList.drop 1000).length := by
      rw [List.length_drop]
      omega
    exact List.length_pos.mp hpos
  · show (if r.id = r.id then some ⟨r.id, r.vector, r.text, r.metadata⟩
      else gstore r.id).map PgRow.text = _
    rw [if_pos rfl]
    rfl

theorem pinecone_truncates_text_witness :
    pineconeSearchTextOf
      (pineconeUpsertStore (fun _ => none)
        [⟨"id1", [], String.mk (List.replicate 1001 'a'), [("filename", "f")], none⟩]).1
      "id1" =
      some (String.mk ((String.mk (List.replicate 1001 'a')).toList.take 1000))
    ∧ (String.mk ((String.mk (List.replicate 1001 'a')).toList.take 1000)) ≠
        String.mk (List.replicate 1001 'a')
    ∧ (∃ rest, rest ≠ [] ∧ (String.mk (List.replicate 1001 'a')).toList =
        (String.mk (List.replicate 1001 'a')).toList.take 1000 ++ rest)
    ∧ pgSearchTextOf
        (pgUpsertStore (fun _ => none)
          [⟨"id1", [], String.mk (List.replicate 1001 'a'), [("filename", "f")], none⟩]).1
        "id1" = some (String.mk (List.replicate 1001 'a')) :=
  pinecone_truncates_text_pgvector_does_not
    ⟨"id1", [], String.mk (List.replicate 1001 'a'), [("filename", "f")], none⟩
    (fun _ => none) (fun _ => none) (by decide)
    (by simp [String.toList, List.length_replicate])
